import Mathlib

/-!
Verification development for the deposit-relay core of the poa-bridge
repository (`src/bridge/src/bridge/deposit_relay.rs`), as a shallow
embedding in Lean 4.

Bytes are modelled as `Nat` values (each concrete byte is `< 256`);
byte strings are `List Nat`.  256-bit chain integers (`U256`) are
modelled as `Nat`: every quantity the relay multiplies (`gas`,
`gas_price` — `u64` configuration fields — and a batch length) is below
`2 ^ 64`, so the products stay below `2 ^ 192 < 2 ^ 256` and the `U256`
arithmetic of the source never wraps; `Nat` arithmetic coincides with it
on this range.
-/

namespace PoaBridge

/-- A raw web3 log, with the three fields `deposit_relay_payload` reads:
`topics`, `data`, and the optional `transaction_hash`. -/
structure Log where
  topics : List (List Nat)
  data : List Nat
  transaction_hash : Option (List Nat)
deriving Repr, DecidableEq

/-- Modelled from the spec: the source-chain deposit event signature topic
used by the contract bindings (`home.events().deposit()`), which live
outside `src/`.  Its concrete value is fixed by the seed fixture
(`e1fffcc4…109c`). -/
def depositEventTopic : List Nat :=
  [0xe1, 0xff, 0xfc, 0xc4, 0x92, 0x3d, 0x04, 0xb5,
   0x59, 0xf4, 0xd2, 0x9a, 0x8b, 0xfc, 0x6c, 0xda,
   0x04, 0xeb, 0x5b, 0x0d, 0x3c, 0x46, 0x07, 0x51,
   0xc2, 0x40, 0x2c, 0x5c, 0x5c, 0xc9, 0x10, 0x9c]

/-- Modelled from the spec: the destination-chain `deposit` function
selector used by `foreign.functions().deposit().input(…)`; its concrete
value is fixed by the seed fixture (`26b3293f`). -/
def depositSelector : List Nat := [0x26, 0xb3, 0x29, 0x3f]

/-- Big-endian value of a byte string. -/
def wordToNat (w : List Nat) : Nat :=
  w.foldl (fun a b => a * 256 + b) 0

/-- The 32-byte big-endian encoding of a 256-bit value. -/
def natToWord (n : Nat) : List Nat :=
  (List.range 32).map (fun i => n / 256 ^ (31 - i) % 256)

/-- A decoded deposit event: `{recipient, value}` (the source transaction
hash is taken from the log separately). -/
structure DepositEvent where
  recipient : List Nat
  value : Nat
deriving Repr, DecidableEq

/-- Modelled from the spec: `decode(log) -> Result<DepositEvent, DecodeError>`
(`home.events().deposit().parse_log`, outside `src/`): fails unless the
topics are exactly the deposit event signature topic and the data holds
the two 32-byte words `recipient` (an address, the last 20 bytes of the
first word) and `value`. -/
def parse_log (topics : List (List Nat)) (data : List Nat) : Except Unit DepositEvent :=
  if topics = [depositEventTopic] ∧ 64 ≤ data.length then
    Except.ok { recipient := (data.take 32).drop 12,
                value := wordToNat ((data.drop 32).take 32) }
  else
    Except.error ()

/-- Modelled from the spec: `encode(event) -> Bytes`
(`foreign.functions().deposit().input(recipient, value, hash)`, outside
`src/`): the destination call payload
`selector ++ pad32(recipient) ++ word(value) ++ hash`. -/
def deposit_input (recipient : List Nat) (value : Nat) (hash : List Nat) : List Nat :=
  depositSelector ++ List.replicate 12 0 ++ recipient ++ natToWord value ++ hash

/-- Outcome of `deposit_relay_payload`: a successful payload, a `Result`
error (the `?` on `parse_log`), or a panic (the `expect` on
`transaction_hash`). -/
inductive POutcome
  | ok (payload : List Nat)
  | err
  | panic
deriving Repr, DecidableEq

/-- `deposit_relay_payload` from `deposit_relay.rs`: parse the log as a
deposit event (propagating the decode error with `?`), then `expect` the
transaction hash (panicking when it is absent), then encode the
destination call payload. -/
def deposit_relay_payload (log : Log) : POutcome :=
  match parse_log log.topics log.data with
  | Except.error _ => POutcome.err
  | Except.ok ev =>
    match log.transaction_hash with
    | none => POutcome.panic
    | some hash => POutcome.ok (deposit_input ev.recipient ev.value hash)

/-- The seed fixture log of `test_deposit_relay_payload`: data
`…aff345…00f0`, deposit topic, transaction hash `884edad9…4364`. -/
def fixtureLog : Log :=
  { topics := [depositEventTopic],
    data :=
      [0x00, 0x00, 0x00, 0x00, 0x00, 0x00, 0x00, 0x00,
       0x00, 0x00, 0x00, 0x00, 0xaf, 0xf3, 0x45, 0x4f,
       0xce, 0x5e, 0xdb, 0xc8, 0xcc, 0xa8, 0x69, 0x7c,
       0x15, 0x33, 0x16, 0x77, 0xe6, 0xeb, 0xcc, 0xcc,
       0x00, 0x00, 0x00, 0x00, 0x00, 0x00, 0x00, 0x00,
       0x00, 0x00, 0x00, 0x00, 0x00, 0x00, 0x00, 0x00,
       0x00, 0x00, 0x00, 0x00, 0x00, 0x00, 0x00, 0x00,
       0x00, 0x00, 0x00, 0x00, 0x00, 0x00, 0x00, 0xf0],
    transaction_hash := some
      [0x88, 0x4e, 0xda, 0xd9, 0xce, 0x6f, 0xa2, 0x44,
       0x0d, 0x8a, 0x54, 0xcc, 0x12, 0x34, 0x90, 0xeb,
       0x96, 0xd2, 0x76, 0x84, 0x79, 0xd4, 0x9f, 0xf9,
       0xc7, 0x36, 0x61, 0x25, 0xa9, 0x42, 0x43, 0x64] }

/-- The byte-exact expected payload of the seed fixture:
`26b3293f ++ pad32(recipient) ++ word(0xf0) ++ source tx hash`. -/
def fixtureExpectedPayload : List Nat :=
  [0x26, 0xb3, 0x29, 0x3f,
   0x00, 0x00, 0x00, 0x00, 0x00, 0x00, 0x00, 0x00,
   0x00, 0x00, 0x00, 0x00, 0xaf, 0xf3, 0x45, 0x4f,
   0xce, 0x5e, 0xdb, 0xc8, 0xcc, 0xa8, 0x69, 0x7c,
   0x15, 0x33, 0x16, 0x77, 0xe6, 0xeb, 0xcc, 0xcc,
   0x00, 0x00, 0x00, 0x00, 0x00, 0x00, 0x00, 0x00,
   0x00, 0x00, 0x00, 0x00, 0x00, 0x00, 0x00, 0x00,
   0x00, 0x00, 0x00, 0x00, 0x00, 0x00, 0x00, 0x00,
   0x00, 0x00, 0x00, 0x00, 0x00, 0x00, 0x00, 0xf0,
   0x88, 0x4e, 0xda, 0xd9, 0xce, 0x6f, 0xa2, 0x44,
   0x0d, 0x8a, 0x54, 0xcc, 0x12, 0x34, 0x90, 0xeb,
   0x96, 0xd2, 0x76, 0x84, 0x79, 0xd4, 0x9f, 0xf9,
   0xc7, 0x36, 0x61, 0x25, 0xa9, 0x42, 0x43, 0x64]

/-- The seed fixture log with its transaction hash removed. -/
def fixtureLogNoHash : Log :=
  { fixtureLog with transaction_hash := none }

/-- The `ethcore_transaction::Transaction` the relay builds for each
payload, with the fields `DepositRelay::poll` sets: `gas`, `gas_price`,
`value`, `data`, `nonce` and the `Call` target address. -/
structure Transaction where
  gas : Nat
  gas_price : Nat
  value : Nat
  data : List Nat
  nonce : Nat
  action : List Nat
deriving Repr, DecidableEq

/-- The relay configuration the poll step reads:
`app.config.txs.deposit_relay.gas`, `…gas_price` (both `u64`), and the
`foreign_contract` address. -/
structure Config where
  gas : Nat
  gas_price : Nat
  foreign_contract : List Nat
deriving Repr, DecidableEq

/-- One item of the confirmed-log stream: the raw logs of a batch and
`to`, the highest source block covered (the checkpoint value). -/
structure LogStreamItem where
  logs : List Log
  «to» : Nat
deriving Repr, DecidableEq

/-- What `self.logs.poll()` yields at one poll, as seen through
`try_stream!`: not ready, a stream error, end of stream (`Ready(None)`),
or a batch item. -/
inductive LogsPoll
  | notReady
  | streamErr
  | ended
  | item (i : LogStreamItem)
deriving Repr, DecidableEq

/-- State of one in-flight submission future at one poll of the joined
future: still pending, resolved with success, or resolved with an error
(RPC rejection or timeout). -/
inductive SubPoll
  | pending
  | done
  | failed
deriving Repr, DecidableEq

/-- The environment of one call to `poll`: the shared balance and nonce
snapshots read at this call, the upstream log-stream poll outcome, the
behaviour of `prepare_raw_transaction` (the external signer), and the
per-submission resolution status of the in-flight batch. -/
structure Env where
  foreign_balance : Option Nat
  foreign_nonce : Option Nat
  logs : LogsPoll
  sign : Transaction → Except Unit (List Nat)
  sub : Nat → SubPoll

/-- The fatal error kinds a poll call can return. -/
inductive RelayError
  | insufficientFunds
  | decode
  | signer
  | submit
  | stream
deriving Repr, DecidableEq

/-- The driver-visible outcome of one poll call: `NotReady`,
`Ready(Option checkpoint)`, a stream error, or a panic (unwinding). -/
inductive PollResult
  | notReady
  | ready (x : Option Nat)
  | err (e : RelayError)
  | panic
deriving Repr, DecidableEq

/-- `DepositRelayState` from `deposit_relay.rs`: waiting for logs,
relaying a batch (the in-flight signed submissions and the batch's upper
block), or yielding a checkpoint. -/
inductive DepositRelayState
  | Wait
  | RelayDeposits (txs : List (List Nat)) (block : Nat)
  | Yield (checkpoint : Option Nat)
deriving Repr, DecidableEq

/-- Everything observable about one call to `DepositRelay::poll`: the
returned value, the relay state after the call, whether the upstream log
stream was polled at all, the batch item consumed from it (if any), and
the transactions built and handed to the signer, in order. -/
structure PollOut where
  result : PollResult
  state : DepositRelayState
  streamPolled : Bool
  pulled : Option LogStreamItem
  builtTxs : List Transaction
deriving Repr

/-- Result of collecting the payloads of a batch: all payloads, or the
first decode error, or a panic on a hash-less log. -/
inductive Collected
  | ok (payloads : List (List Nat))
  | err
  | panic
deriving Repr, DecidableEq

/-- Sequentially map `deposit_relay_payload` over a batch's logs and
collect the results (`collect::<Result<Vec<_>>>()`), short-circuiting at
the first error or panic, in log order. -/
def collectPayloads : List Log → Collected
  | [] => Collected.ok []
  | l :: ls =>
    match deposit_relay_payload l with
    | POutcome.err => Collected.err
    | POutcome.panic => Collected.panic
    | POutcome.ok p =>
      match collectPayloads ls with
      | Collected.ok ps => Collected.ok (p :: ps)
      | e => e

/-- Build one `Transaction` per payload and sign it
(`prepare_raw_transaction`), short-circuiting at the first signer error
(`fold_results … ?`).  Every transaction carries the same `nonce`,
exactly as the source sets `nonce: foreign_nonce.unwrap()` for each
element of the batch.  Returns the transactions handed to the signer (in
order, up to and including a failed one) and the signed raw bytes, or
the signer error. -/
def buildAndSign (cfg : Config) (nonce : Nat) (sign : Transaction → Except Unit (List Nat)) :
    List (List Nat) → List Transaction × Except Unit (List (List Nat))
  | [] => ([], Except.ok [])
  | p :: ps =>
    let tx : Transaction :=
      { gas := cfg.gas, gas_price := cfg.gas_price, value := 0,
        data := p, nonce := nonce, action := cfg.foreign_contract }
    match sign tx with
    | Except.error e => ([tx], Except.error e)
    | Except.ok raw =>
      match buildAndSign cfg nonce sign ps with
      | (txs, Except.ok raws) => (tx :: txs, Except.ok (raw :: raws))
      | (txs, Except.error e) => (tx :: txs, Except.error e)

/-- Resolution of `join_all` over the in-flight submissions at one poll:
it fails as soon as any submission has failed, stays pending while any
is pending, and succeeds only when all have succeeded. -/
inductive JoinPoll
  | notReady
  | ok
  | failed
deriving Repr, DecidableEq

/-- One poll of the joined future of `n` in-flight submissions
(`futures::join_all` over timeout-wrapped RPC calls). -/
def joinPoll (n : Nat) (f : Nat → SubPoll) : JoinPoll :=
  if (List.range n).any (fun i => decide (f i = SubPoll.failed)) then JoinPoll.failed
  else if (List.range n).any (fun i => decide (f i = SubPoll.pending)) then JoinPoll.notReady
  else JoinPoll.ok

/-- The `DepositRelayState::RelayDeposits` arm of the poll loop: poll the
joined future; propagate its error (`try_ready!`, leaving the state in
place), stay pending, or move to `Yield(Some(block))` — which the same
loop iteration then consumes, emitting the checkpoint and leaving the
state at `Yield(None)`.  The extra arguments thread the observables
accumulated earlier in the same call. -/
def pollRelay (env : Env) (txs : List (List Nat)) (block : Nat)
    (sp : Bool) (pu : Option LogStreamItem) (bt : List Transaction) : PollOut :=
  match joinPoll txs.length env.sub with
  | JoinPoll.failed =>
    { result := PollResult.err RelayError.submit,
      state := DepositRelayState.RelayDeposits txs block,
      streamPolled := sp, pulled := pu, builtTxs := bt }
  | JoinPoll.notReady =>
    { result := PollResult.notReady,
      state := DepositRelayState.RelayDeposits txs block,
      streamPolled := sp, pulled := pu, builtTxs := bt }
  | JoinPoll.ok =>
    { result := PollResult.ready (some block),
      state := DepositRelayState.Yield none,
      streamPolled := sp, pulled := pu, builtTxs := bt }

/-- The `DepositRelayState::Wait` arm of the poll loop: gate on the
balance and nonce snapshots, pull the next batch through `try_stream!`,
apply the balance gate, decode and encode all events, build and sign the
transactions, then fall through to relaying the fresh batch within the
same call. -/
def pollWait (cfg : Config) (env : Env) : PollOut :=
  match env.foreign_balance with
  | none =>
    { result := PollResult.notReady, state := DepositRelayState.Wait,
      streamPolled := false, pulled := none, builtTxs := [] }
  | some bal =>
    match env.foreign_nonce with
    | none =>
      { result := PollResult.notReady, state := DepositRelayState.Wait,
        streamPolled := false, pulled := none, builtTxs := [] }
    | some nonce =>
      match env.logs with
      | LogsPoll.notReady =>
        { result := PollResult.notReady, state := DepositRelayState.Wait,
          streamPolled := true, pulled := none, builtTxs := [] }
      | LogsPoll.streamErr =>
        { result := PollResult.err RelayError.stream, state := DepositRelayState.Wait,
          streamPolled := true, pulled := none, builtTxs := [] }
      | LogsPoll.ended =>
        { result := PollResult.ready none, state := DepositRelayState.Wait,
          streamPolled := true, pulled := none, builtTxs := [] }
      | LogsPoll.item item =>
        if cfg.gas * cfg.gas_price * item.logs.length > bal then
          { result := PollResult.err RelayError.insufficientFunds,
            state := DepositRelayState.Wait,
            streamPolled := true, pulled := some item, builtTxs := [] }
        else
          match collectPayloads item.logs with
          | Collected.err =>
            { result := PollResult.err RelayError.decode,
              state := DepositRelayState.Wait,
              streamPolled := true, pulled := some item, builtTxs := [] }
          | Collected.panic =>
            { result := PollResult.panic,
              state := DepositRelayState.Wait,
              streamPolled := true, pulled := some item, builtTxs := [] }
          | Collected.ok payloads =>
            match buildAndSign cfg nonce env.sign payloads with
            | (built, Except.error _) =>
              { result := PollResult.err RelayError.signer,
                state := DepositRelayState.Wait,
                streamPolled := true, pulled := some item, builtTxs := built }
            | (built, Except.ok signed) =>
              pollRelay env signed item.«to» true (some item) built

/-- One call to `DepositRelay::poll`, from a given state.  The internal
`loop` is unrolled: `Yield(None)` re-enters the `Wait` logic in the same
call, `Yield(Some b)` takes and emits the checkpoint (leaving
`Yield(None)` behind), a fresh batch is relayed immediately, and errors
return before `self.state` is reassigned. -/
def poll (cfg : Config) (env : Env) : DepositRelayState → PollOut
  | DepositRelayState.Wait => pollWait cfg env
  | DepositRelayState.RelayDeposits txs block => pollRelay env txs block false none []
  | DepositRelayState.Yield (some b) =>
    { result := PollResult.ready (some b), state := DepositRelayState.Yield none,
      streamPolled := false, pulled := none, builtTxs := [] }
  | DepositRelayState.Yield none => pollWait cfg env

/-- Whether a poll outcome terminates the stream for its driver: end of
stream, a fatal error, or a panic. -/
def stops : PollResult → Bool
  | PollResult.notReady => false
  | PollResult.ready (some _) => false
  | PollResult.ready none => true
  | PollResult.err _ => true
  | PollResult.panic => true

/-- Drive the relay through a sequence of poll calls, one environment
per call, stopping at the first terminating outcome.  Returns the final
state and the per-call observables. -/
def run (cfg : Config) : DepositRelayState → List Env → DepositRelayState × List PollOut
  | s, [] => (s, [])
  | s, e :: es =>
    let o := poll cfg e s
    if stops o.result then (o.state, [o])
    else
      let (s2, os) := run cfg o.state es
      (s2, o :: os)

/-- The checkpoints emitted over a trace, in order. -/
def emitted (os : List PollOut) : List Nat :=
  os.filterMap (fun o =>
    match o.result with
    | PollResult.ready (some b) => some b
    | _ => none)

/-- The upper blocks of the batches pulled from the log stream over a
trace, in order. -/
def pulledTos (os : List PollOut) : List Nat :=
  os.filterMap (fun o => o.pulled.map LogStreamItem.«to»)

/-- The checkpoints still held inside a relay state, waiting to be
emitted. -/
def pendingBlocks : DepositRelayState → List Nat
  | DepositRelayState.Wait => []
  | DepositRelayState.RelayDeposits _ b => [b]
  | DepositRelayState.Yield none => []
  | DepositRelayState.Yield (some b) => [b]

/-- The checkpoint emitted by one poll call (at most one). -/
def emittedOf (o : PollOut) : List Nat :=
  match o.result with
  | PollResult.ready (some b) => [b]
  | _ => []

/-- The upper block of the batch pulled by one poll call (at most one). -/
def pulledOf (o : PollOut) : List Nat :=
  match o.pulled with
  | some i => [i.«to»]
  | none => []

/-- A concrete relay configuration used by concrete evaluations. -/
def cfgA : Config := { gas := 2, gas_price := 3, foreign_contract := [1, 2] }

/-- A concrete two-deposit batch at upper block 7. -/
def itemTwo : LogStreamItem := { logs := [fixtureLog, fixtureLog], «to» := 7 }

/-- A concrete environment delivering the two-deposit batch with a large
balance, nonce snapshot 5, a successful signer, and pending submissions. -/
def envTwoDeposits : Env :=
  { foreign_balance := some 1000, foreign_nonce := some 5,
    logs := LogsPoll.item itemTwo,
    sign := fun _ => Except.ok [9],
    sub := fun _ => SubPoll.pending }

/-- The same environment with a balance below the projected batch cost. -/
def envPoor : Env := { envTwoDeposits with foreign_balance := some 5 }

/-- The same environment delivering an empty batch at upper block 9. -/
def envEmptyBatch : Env :=
  { envTwoDeposits with logs := LogsPoll.item { logs := [], «to» := 9 } }

/-- The same environment with the balance snapshot unpopulated. -/
def envUnknown : Env := { envTwoDeposits with foreign_balance := none }

/-- The same environment where the first submission succeeded and every
other one failed. -/
def envOneFail : Env :=
  { envTwoDeposits with
      sub := fun i => if i = 0 then SubPoll.done else SubPoll.failed }

/-- The same environment with every submission resolved successfully. -/
def envDone : Env := { envTwoDeposits with sub := fun _ => SubPoll.done }

lemma joinPoll_eq_failed_iff (n : Nat) (f : Nat → SubPoll) :
    joinPoll n f = JoinPoll.failed ↔ ∃ i, i < n ∧ f i = SubPoll.failed := by
  simp only [joinPoll, List.any_eq_true, List.mem_range, decide_eq_true_eq]
  split_ifs with h1 h2
  · exact iff_of_true rfl h1
  · exact iff_of_false (by simp) h1
  · exact iff_of_false (by simp) h1

lemma joinPoll_eq_ok_iff (n : Nat) (f : Nat → SubPoll) :
    joinPoll n f = JoinPoll.ok ↔ ∀ i, i < n → f i = SubPoll.done := by
  simp only [joinPoll, List.any_eq_true, List.mem_range, decide_eq_true_eq]
  split_ifs with h1 h2
  · refine iff_of_false (by simp) ?_
    intro h
    obtain ⟨i, hi, hfi⟩ := h1
    rw [h i hi] at hfi
    exact SubPoll.noConfusion hfi
  · refine iff_of_false (by simp) ?_
    intro h
    obtain ⟨i, hi, hfi⟩ := h2
    rw [h i hi] at hfi
    exact SubPoll.noConfusion hfi
  · refine iff_of_true rfl ?_
    intro i hi
    cases hc : f i with
    | pending => exact absurd ⟨i, hi, hc⟩ h2
    | done => rfl
    | failed => exact absurd ⟨i, hi, hc⟩ h1

lemma pollRelay_spec (env : Env) (txs : List (List Nat)) (b : Nat)
    (sp : Bool) (pu : Option LogStreamItem) (bt : List Transaction) :
    (joinPoll txs.length env.sub = JoinPoll.failed ∧
      pollRelay env txs b sp pu bt =
        { result := PollResult.err RelayError.submit,
          state := DepositRelayState.RelayDeposits txs b,
          streamPolled := sp, pulled := pu, builtTxs := bt }) ∨
    (joinPoll txs.length env.sub = JoinPoll.notReady ∧
      pollRelay env txs b sp pu bt =
        { result := PollResult.notReady,
          state := DepositRelayState.RelayDeposits txs b,
          streamPolled := sp, pulled := pu, builtTxs := bt }) ∨
    (joinPoll txs.length env.sub = JoinPoll.ok ∧
      pollRelay env txs b sp pu bt =
        { result := PollResult.ready (some b),
          state := DepositRelayState.Yield none,
          streamPolled := sp, pulled := pu, builtTxs := bt }) := by
  cases h : joinPoll txs.length env.sub with
  | failed => exact Or.inl ⟨rfl, by simp [pollRelay, h]⟩
  | notReady => exact Or.inr (Or.inl ⟨rfl, by simp [pollRelay, h]⟩)
  | ok => exact Or.inr (Or.inr ⟨rfl, by simp [pollRelay, h]⟩)

/-- Exhaustive characterization of the `Wait` arm of the poll loop: one
of ten mutually exclusive branches applies. -/
lemma pollWait_spec (cfg : Config) (env : Env) :
    (env.foreign_balance = none ∧
      pollWait cfg env =
        { result := PollResult.notReady, state := DepositRelayState.Wait,
          streamPolled := false, pulled := none, builtTxs := [] }) ∨
    (∃ bal, env.foreign_balance = some bal ∧ env.foreign_nonce = none ∧
      pollWait cfg env =
        { result := PollResult.notReady, state := DepositRelayState.Wait,
          streamPolled := false, pulled := none, builtTxs := [] }) ∨
    (∃ bal nonce, env.foreign_balance = some bal ∧ env.foreign_nonce = some nonce ∧
      env.logs = LogsPoll.notReady ∧
      pollWait cfg env =
        { result := PollResult.notReady, state := DepositRelayState.Wait,
          streamPolled := true, pulled := none, builtTxs := [] }) ∨
    (∃ bal nonce, env.foreign_balance = some bal ∧ env.foreign_nonce = some nonce ∧
      env.logs = LogsPoll.streamErr ∧
      pollWait cfg env =
        { result := PollResult.err RelayError.stream, state := DepositRelayState.Wait,
          streamPolled := true, pulled := none, builtTxs := [] }) ∨
    (∃ bal nonce, env.foreign_balance = some bal ∧ env.foreign_nonce = some nonce ∧
      env.logs = LogsPoll.ended ∧
      pollWait cfg env =
        { result := PollResult.ready none, state := DepositRelayState.Wait,
          streamPolled := true, pulled := none, builtTxs := [] }) ∨
    (∃ bal nonce item, env.foreign_balance = some bal ∧ env.foreign_nonce = some nonce ∧
      env.logs = LogsPoll.item item ∧
      cfg.gas * cfg.gas_price * item.logs.length > bal ∧
      pollWait cfg env =
        { result := PollResult.err RelayError.insufficientFunds,
          state := DepositRelayState.Wait,
          streamPolled := true, pulled := some item, builtTxs := [] }) ∨
    (∃ bal nonce item, env.foreign_balance = some bal ∧ env.foreign_nonce = some nonce ∧
      env.logs = LogsPoll.item item ∧
      ¬ (cfg.gas * cfg.gas_price * item.logs.length > bal) ∧
      collectPayloads item.logs = Collected.err ∧
      pollWait cfg env =
        { result := PollResult.err RelayError.decode,
          state := DepositRelayState.Wait,
          streamPolled := true, pulled := some item, builtTxs := [] }) ∨
    (∃ bal nonce item, env.foreign_balance = some bal ∧ env.foreign_nonce = some nonce ∧
      env.logs = LogsPoll.item item ∧
      ¬ (cfg.gas * cfg.gas_price * item.logs.length > bal) ∧
      collectPayloads item.logs = Collected.panic ∧
      pollWait cfg env =
        { result := PollResult.panic,
          state := DepositRelayState.Wait,
          streamPolled := true, pulled := some item, builtTxs := [] }) ∨
    (∃ bal nonce item payloads built, env.foreign_balance = some bal ∧
      env.foreign_nonce = some nonce ∧
      env.logs = LogsPoll.item item ∧
      ¬ (cfg.gas * cfg.gas_price * item.logs.length > bal) ∧
      collectPayloads item.logs = Collected.ok payloads ∧
      (∃ e, buildAndSign cfg nonce env.sign payloads = (built, Except.error e)) ∧
      pollWait cfg env =
        { result := PollResult.err RelayError.signer,
          state := DepositRelayState.Wait,
          streamPolled := true, pulled := some item, builtTxs := built }) ∨
    (∃ bal nonce item payloads built signed, env.foreign_balance = some bal ∧
      env.foreign_nonce = some nonce ∧
      env.logs = LogsPoll.item item ∧
      ¬ (cfg.gas * cfg.gas_price * item.logs.length > bal) ∧
      collectPayloads item.logs = Collected.ok payloads ∧
      buildAndSign cfg nonce env.sign payloads = (built, Except.ok signed) ∧
      pollWait cfg env = pollRelay env signed item.«to» true (some item) built) := by
  cases hb : env.foreign_balance with
  | none =>
    exact Or.inl ⟨rfl, by simp [pollWait, hb]⟩
  | some bal =>
  cases hn : env.foreign_nonce with
  | none =>
    exact Or.inr (Or.inl ⟨bal, rfl, rfl, by simp [pollWait, hb, hn]⟩)
  | some nonce =>
  cases hl : env.logs with
  | notReady =>
    exact Or.inr (Or.inr (Or.inl ⟨bal, nonce, rfl, rfl, rfl, by simp [pollWait, hb, hn, hl]⟩))
  | streamErr =>
    exact Or.inr (Or.inr (Or.inr (Or.inl
      ⟨bal, nonce, rfl, rfl, rfl, by simp [pollWait, hb, hn, hl]⟩)))
  | ended =>
    exact Or.inr (Or.inr (Or.inr (Or.inr (Or.inl
      ⟨bal, nonce, rfl, rfl, rfl, by simp [pollWait, hb, hn, hl]⟩))))
  | item it =>
  by_cases hgt : cfg.gas * cfg.gas_price * it.logs.length > bal
  · exact Or.inr (Or.inr (Or.inr (Or.inr (Or.inr (Or.inl
      ⟨bal, nonce, it, rfl, rfl, rfl, hgt, by simp [pollWait, hb, hn, hl, hgt]⟩)))))
  · cases hc : collectPayloads it.logs with
    | err =>
      exact Or.inr (Or.inr (Or.inr (Or.inr (Or.inr (Or.inr (Or.inl
        ⟨bal, nonce, it, rfl, rfl, rfl, hgt, hc,
         by simp [pollWait, hb, hn, hl, hgt, hc]⟩))))))
    | panic =>
      exact Or.inr (Or.inr (Or.inr (Or.inr (Or.inr (Or.inr (Or.inr (Or.inl
        ⟨bal, nonce, it, rfl, rfl, rfl, hgt, hc,
         by simp [pollWait, hb, hn, hl, hgt, hc]⟩)))))))
    | ok payloads =>
      cases hbs : buildAndSign cfg nonce env.sign payloads with
      | mk built res =>
      cases res with
      | error e =>
        refine Or.inr (Or.inr (Or.inr (Or.inr (Or.inr (Or.inr (Or.inr (Or.inr (Or.inl
          ⟨bal, nonce, it, payloads, built, rfl, rfl, rfl, hgt, hc, ⟨e, hbs⟩, ?_⟩))))))))
        simp [pollWait, hb, hn, hl, hgt, hc, hbs]
      | ok signed =>
        refine Or.inr (Or.inr (Or.inr (Or.inr (Or.inr (Or.inr (Or.inr (Or.inr (Or.inr
          ⟨bal, nonce, it, payloads, built, signed, rfl, rfl, rfl, hgt, hc, hbs, ?_⟩))))))))
        simp [pollWait, hb, hn, hl, hgt, hc, hbs]

/-- Claim C1: the claim states that the `n` transactions of a confirmed
batch are assigned strictly increasing nonces `start, start+1, …,
start+n-1` with no repeats.  The code instead sets
`nonce: foreign_nonce.unwrap()` — the same snapshot value — on every
transaction of the batch: at the failing input (a two-deposit batch with
nonce snapshot 5, ample balance, a successful signer), both built
transactions carry nonce 5, not 5 and 6. -/
theorem C1_batch_reuses_single_nonce :
    (poll cfgA envTwoDeposits DepositRelayState.Wait).builtTxs.map Transaction.nonce
        = [5, 5] ∧
    (poll cfgA envTwoDeposits DepositRelayState.Wait).builtTxs.map Transaction.nonce
        ≠ [5, 6] := by
  refine ⟨by decide, ?_⟩
  intro h
  have h5 : (poll cfgA envTwoDeposits DepositRelayState.Wait).builtTxs.map Transaction.nonce
      = [5, 5] := by decide
  rw [h5] at h
  simp at h

/-- Claim C2: from an in-flight batch, the checkpoint is emitted only if
the joined submission future resolves with success; if any one of the
submissions failed, the poll returns the submit error (terminating the
stream), no checkpoint is emitted, and the state is left in place — even
if every other submission succeeded.  Conversely a `Ready` emission from
the in-flight state means every submission succeeded, and the emitted
value is the batch's block. -/
theorem C2_all_or_nothing_submission (cfg : Config) (env : Env)
    (txs : List (List Nat)) (b : Nat) :
    ((∃ i, i < txs.length ∧ env.sub i = SubPoll.failed) →
      (poll cfg env (DepositRelayState.RelayDeposits txs b)).result =
          PollResult.err RelayError.submit ∧
      stops (poll cfg env (DepositRelayState.RelayDeposits txs b)).result = true ∧
      emittedOf (poll cfg env (DepositRelayState.RelayDeposits txs b)) = [] ∧
      (poll cfg env (DepositRelayState.RelayDeposits txs b)).state =
          DepositRelayState.RelayDeposits txs b) ∧
    (∀ c, (poll cfg env (DepositRelayState.RelayDeposits txs b)).result =
          PollResult.ready (some c) →
      c = b ∧ ∀ i, i < txs.length → env.sub i = SubPoll.done) := by
  have hspec := pollRelay_spec env txs b false none []
  simp only [poll]
  constructor
  · rintro ⟨i, hi, hf⟩
    have hfail : joinPoll txs.length env.sub = JoinPoll.failed :=
      (joinPoll_eq_failed_iff txs.length env.sub).mpr ⟨i, hi, hf⟩
    rcases hspec with ⟨h1, he⟩ | ⟨h1, he⟩ | ⟨h1, he⟩
    · rw [he]
      exact ⟨rfl, rfl, rfl, rfl⟩
    · rw [h1] at hfail
      exact JoinPoll.noConfusion hfail
    · rw [h1] at hfail
      exact JoinPoll.noConfusion hfail
  · intro c hc
    rcases hspec with ⟨h1, he⟩ | ⟨h1, he⟩ | ⟨h1, he⟩
    · rw [he] at hc
      exact absurd hc (by simp)
    · rw [he] at hc
      exact absurd hc (by simp)
    · rw [he] at hc
      simp only [PollOut.mk.injEq] at hc
      have hcb : c = b := by
        have : PollResult.ready (some b) = PollResult.ready (some c) := hc
        injection this with h2
        injection h2 with h3
        exact h3.symm
      exact ⟨hcb, fun i hi => (joinPoll_eq_ok_iff txs.length env.sub).mp h1 i hi⟩

/-- Witness for C2 at a concrete input: a two-submission batch where the
first submission succeeded and the second failed. -/
theorem C2_all_or_nothing_submission_witness :
    (poll cfgA envOneFail (DepositRelayState.RelayDeposits [[9], [9]] 7)).result =
        PollResult.err RelayError.submit ∧
    emittedOf (poll cfgA envOneFail (DepositRelayState.RelayDeposits [[9], [9]] 7)) = [] := by
  have h := (C2_all_or_nothing_submission cfgA envOneFail [[9], [9]] 7).1
    ⟨1, by decide, by decide⟩
  exact ⟨h.1, h.2.2.1⟩

/-- Claim C3: if `gas * gas_price * len(events)` exceeds the balance
snapshot, the poll from `Wait` returns the insufficient-funds error, the
state stays `Wait`, and zero transactions are built, signed or
submitted. -/
theorem C3_balance_gate (cfg : Config) (env : Env) (bal nonce : Nat)
    (item : LogStreamItem)
    (hb : env.foreign_balance = some bal) (hn : env.foreign_nonce = some nonce)
    (hl : env.logs = LogsPoll.item item)
    (hgt : cfg.gas * cfg.gas_price * item.logs.length > bal) :
    poll cfg env DepositRelayState.Wait =
      { result := PollResult.err RelayError.insufficientFunds,
        state := DepositRelayState.Wait,
        streamPolled := true, pulled := some item, builtTxs := [] } := by
  simp [poll, pollWait, hb, hn, hl, hgt]

/-- Witness for C3 at a concrete input: the two-deposit batch with
balance snapshot 5, below the projected cost 2 * 3 * 2 = 12. -/
theorem C3_balance_gate_witness :
    poll cfgA envPoor DepositRelayState.Wait =
      { result := PollResult.err RelayError.insufficientFunds,
        state := DepositRelayState.Wait,
        streamPolled := true, pulled := some itemTwo, builtTxs := [] } :=
  C3_balance_gate cfgA envPoor 5 5 itemTwo rfl rfl rfl (by decide)

/-- Claim C4: `deposit_relay_payload` is deterministic (a pure function
of the log), and on the seed fixture log it returns exactly the expected
byte string `26b3293f ++ pad32(recipient) ++ word(value) ++ source tx
hash`. -/
theorem C4_payload_deterministic_fixture :
    (∀ l₁ l₂ : Log, l₁ = l₂ → deposit_relay_payload l₁ = deposit_relay_payload l₂) ∧
    deposit_relay_payload fixtureLog = POutcome.ok fixtureExpectedPayload := by
  refine ⟨?_, by decide⟩
  intro l₁ l₂ h
  rw [h]

/-- Witness for C4 at a concrete input: determinism applied at the seed
fixture log. -/
theorem C4_payload_deterministic_fixture_witness :
    deposit_relay_payload fixtureLog = deposit_relay_payload fixtureLog :=
  C4_payload_deterministic_fixture.1 fixtureLog fixtureLog rfl

/-- Claim C6: for a batch with zero events (with populated balance and
nonce snapshots), the poll immediately yields the checkpoint
`item.to`, builds no transaction, never invokes the signer, and leaves
the consumed `Yield` state behind. -/
theorem C6_empty_batch_yields (cfg : Config) (env : Env) (bal nonce : Nat)
    (item : LogStreamItem)
    (hb : env.foreign_balance = some bal) (hn : env.foreign_nonce = some nonce)
    (hl : env.logs = LogsPoll.item item) (he : item.logs = []) :
    poll cfg env DepositRelayState.Wait =
      { result := PollResult.ready (some item.«to»),
        state := DepositRelayState.Yield none,
        streamPolled := true, pulled := some item, builtTxs := [] } := by
  simp [poll, pollWait, hb, hn, hl, he, collectPayloads, buildAndSign,
        pollRelay, joinPoll]

/-- Witness for C6 at a concrete input: an empty batch at upper block 9. -/
theorem C6_empty_batch_yields_witness :
    poll cfgA envEmptyBatch DepositRelayState.Wait =
      { result := PollResult.ready (some 9),
        state := DepositRelayState.Yield none,
        streamPolled := true, pulled := some { logs := [], «to» := 9 },
        builtTxs := [] } :=
  C6_empty_batch_yields cfgA envEmptyBatch 1000 5 { logs := [], «to» := 9 }
    rfl rfl rfl rfl

/-- Counterexample to C7 as stated: the claim says a log without a
transaction hash makes `deposit_relay_payload` return a decode-error
`Result` value; at the seed fixture log with the hash removed (topics
and data still matching the event), the function panics (the `expect`)
and does not return the error value. -/
theorem C7_counterexample_no_hash_panics :
    deposit_relay_payload fixtureLogNoHash = POutcome.panic ∧
    deposit_relay_payload fixtureLogNoHash ≠ POutcome.err := by
  refine ⟨by decide, ?_⟩
  intro h
  have hp : deposit_relay_payload fixtureLogNoHash = POutcome.panic := by decide
  rw [hp] at h
  exact POutcome.noConfusion h

/-- Claim C7 (amended): for a raw log whose `transaction_hash` is
absent, `deposit_relay_payload` panics via `expect` when the topics and
data match the deposit event signature; only a topics/data mismatch
produces the decode-error `Result` value (the parse runs first, so the
missing hash is then never examined). -/
theorem C7_amended_no_hash_behaviour (log : Log)
    (h : log.transaction_hash = none) :
    deposit_relay_payload log =
      (match parse_log log.topics log.data with
        | Except.ok _ => POutcome.panic
        | Except.error _ => POutcome.err) := by
  unfold deposit_relay_payload
  cases parse_log log.topics log.data with
  | error e => rfl
  | ok ev => rw [h]

/-- Witness for the amended C7 at a concrete input: the hash-less seed
fixture log panics. -/
theorem C7_amended_no_hash_behaviour_witness :
    deposit_relay_payload fixtureLogNoHash = POutcome.panic :=
  (C7_amended_no_hash_behaviour fixtureLogNoHash rfl).trans (by decide)

/-- Claim C9: a batch is pulled from the upstream stream only from the
`Wait` state (or from `Yield(None)`, which re-enters `Wait` within the
same call); while a batch is in flight the poll never touches the
stream, builds no transaction, and either stays in flight or moves to
the consumed `Yield` state by emitting exactly the in-flight block. -/
theorem C9_no_pull_while_in_flight (cfg : Config) (env : Env)
    (s : DepositRelayState) :
    ((poll cfg env s).pulled ≠ none →
      s = DepositRelayState.Wait ∨ s = DepositRelayState.Yield none) ∧
    (∀ txs b, s = DepositRelayState.RelayDeposits txs b →
      (poll cfg env s).pulled = none ∧
      (poll cfg env s).streamPolled = false ∧
      (poll cfg env s).builtTxs = [] ∧
      ((poll cfg env s).state = DepositRelayState.RelayDeposits txs b ∨
        ((poll cfg env s).state = DepositRelayState.Yield none ∧
         (poll cfg env s).result = PollResult.ready (some b)))) := by
  cases s with
  | Wait =>
    refine ⟨fun _ => Or.inl rfl, ?_⟩
    intro txs b h
    exact DepositRelayState.noConfusion h
  | Yield c =>
    cases c with
    | none =>
      refine ⟨fun _ => Or.inr rfl, ?_⟩
      intro txs b h
      exact DepositRelayState.noConfusion h
    | some b0 =>
      refine ⟨?_, ?_⟩
      · intro h
        exact absurd rfl h
      · intro txs b h
        exact DepositRelayState.noConfusion h
  | RelayDeposits txs0 b0 =>
    have hspec := pollRelay_spec env txs0 b0 false none []
    simp only [poll]
    constructor
    · intro h
      rcases hspec with ⟨_, he⟩ | ⟨_, he⟩ | ⟨_, he⟩ <;> rw [he] at h <;>
        exact absurd rfl h
    · intro txs b h
      have htxs : txs0 = txs := by injection h
      have hb : b0 = b := by injection h
      subst htxs
      subst hb
      rcases hspec with ⟨_, he⟩ | ⟨_, he⟩ | ⟨_, he⟩ <;> rw [he]
      · exact ⟨rfl, rfl, rfl, Or.inl rfl⟩
      · exact ⟨rfl, rfl, rfl, Or.inl rfl⟩
      · exact ⟨rfl, rfl, rfl, Or.inr ⟨rfl, rfl⟩⟩

/-- Witness for C9 at a concrete input: an in-flight two-submission
batch with pending submissions pulls nothing and stays in place. -/
theorem C9_no_pull_while_in_flight_witness :
    (poll cfgA envTwoDeposits (DepositRelayState.RelayDeposits [[9], [9]] 7)).pulled
        = none ∧
    (poll cfgA envTwoDeposits (DepositRelayState.RelayDeposits [[9], [9]] 7)).builtTxs
        = [] := by
  have h := (C9_no_pull_while_in_flight cfgA envTwoDeposits
    (DepositRelayState.RelayDeposits [[9], [9]] 7)).2 [[9], [9]] 7 rfl
  exact ⟨h.1, h.2.2.1⟩

/-- Claim C10: when a poll from `Wait` returns one of the three
`Wait`-side fatal errors (insufficient funds, decode failure,
transaction-preparation failure), the early return skips the state
assignment, so the state is still `Wait` — and the batch already pulled
from the stream is consumed and lost (a batch was indeed pulled). -/
theorem C10_wait_error_keeps_wait (cfg : Config) (env : Env) (e : RelayError)
    (he : e = RelayError.insufficientFunds ∨ e = RelayError.decode ∨
          e = RelayError.signer)
    (hr : (poll cfg env DepositRelayState.Wait).result = PollResult.err e) :
    (poll cfg env DepositRelayState.Wait).state = DepositRelayState.Wait ∧
    (poll cfg env DepositRelayState.Wait).pulled.isSome = true := by
  simp only [poll] at hr ⊢
  rcases pollWait_spec cfg env with
    ⟨_, hw⟩ | ⟨bal, _, _, hw⟩ | ⟨bal, nonce, _, _, _, hw⟩ |
    ⟨bal, nonce, _, _, _, hw⟩ | ⟨bal, nonce, _, _, _, hw⟩ |
    ⟨bal, nonce, it, _, _, _, _, hw⟩ | ⟨bal, nonce, it, _, _, _, _, _, hw⟩ |
    ⟨bal, nonce, it, _, _, _, _, _, hw⟩ |
    ⟨bal, nonce, it, ps, built, _, _, _, _, _, ⟨e2, _⟩, hw⟩ |
    ⟨bal, nonce, it, ps, built, signed, _, _, _, _, _, _, hw⟩
  · rw [hw] at hr
    exact absurd hr (by simp)
  · rw [hw] at hr
    exact absurd hr (by simp)
  · rw [hw] at hr
    exact absurd hr (by simp)
  · rw [hw] at hr
    rcases he with h | h | h <;> subst h <;> simp at hr
  · rw [hw] at hr
    exact absurd hr (by simp)
  · rw [hw]
    exact ⟨rfl, rfl⟩
  · rw [hw]
    exact ⟨rfl, rfl⟩
  · rw [hw] at hr
    exact absurd hr (by simp)
  · rw [hw]
    exact ⟨rfl, rfl⟩
  · rw [hw] at hr ⊢
    rcases pollRelay_spec env signed it.«to» true (some it) built with
      ⟨_, hpr⟩ | ⟨_, hpr⟩ | ⟨_, hpr⟩ <;> rw [hpr] at hr
    · rcases he with h | h | h <;> subst h <;> simp at hr
    · exact absurd hr (by simp)
    · exact absurd hr (by simp)

/-- Witness for C10 at a concrete input: the insufficient-funds error
from the two-deposit batch with balance 5. -/
theorem C10_wait_error_keeps_wait_witness :
    (poll cfgA envPoor DepositRelayState.Wait).state = DepositRelayState.Wait ∧
    (poll cfgA envPoor DepositRelayState.Wait).pulled.isSome = true :=
  C10_wait_error_keeps_wait cfgA envPoor RelayError.insufficientFunds
    (Or.inl rfl) (by decide)

/-- Claim C8: while the balance or the nonce snapshot is unpopulated,
every poll from `Wait` returns not-ready without polling the stream,
pulling a batch, building a transaction, or changing the state — for any
number of repeated polls. -/
theorem C8_not_ready_stable (cfg : Config) (envs : List Env)
    (h : ∀ e ∈ envs, e.foreign_balance = none ∨ e.foreign_nonce = none) :
    run cfg DepositRelayState.Wait envs =
      (DepositRelayState.Wait,
       envs.map (fun _ =>
         { result := PollResult.notReady, state := DepositRelayState.Wait,
           streamPolled := false, pulled := none, builtTxs := [] })) := by
  induction envs with
  | nil => rfl
  | cons e es ih =>
    have he := h e (List.mem_cons_self e es)
    have hpoll : poll cfg e DepositRelayState.Wait =
        { result := PollResult.notReady, state := DepositRelayState.Wait,
          streamPolled := false, pulled := none, builtTxs := [] } := by
      rcases he with hb | hn
      · simp [poll, pollWait, hb]
      · cases hcb : e.foreign_balance with
        | none => simp [poll, pollWait, hcb]
        | some bal => simp [poll, pollWait, hcb, hn]
    have ih2 := ih (fun e2 he2 => h e2 (List.mem_cons_of_mem e he2))
    simp [run, hpoll, stops, ih2]

/-- Witness for C8 at a concrete input: two successive polls with the
balance snapshot unpopulated. -/
theorem C8_not_ready_stable_witness :
    run cfgA DepositRelayState.Wait [envUnknown, envUnknown] =
      (DepositRelayState.Wait,
       [{ result := PollResult.notReady, state := DepositRelayState.Wait,
          streamPolled := false, pulled := none, builtTxs := [] },
        { result := PollResult.notReady, state := DepositRelayState.Wait,
          streamPolled := false, pulled := none, builtTxs := [] }]) :=
  C8_not_ready_stable cfgA [envUnknown, envUnknown]
    (by
      intro e2 he2
      rcases List.mem_cons.mp he2 with h1 | h2
      · rw [h1]
        exact Or.inl rfl
      · rcases List.mem_cons.mp h2 with h3 | h4
        · rw [h3]
          exact Or.inl rfl
        · exact absurd h4 (List.not_mem_nil e2))

lemma emitted_cons (o : PollOut) (os : List PollOut) :
    emitted (o :: os) = emittedOf o ++ emitted os := by
  rcases o with ⟨res, st, sp, pu, bt⟩
  cases res with
  | ready x => cases x <;> simp [emitted, emittedOf, List.filterMap_cons]
  | notReady => simp [emitted, emittedOf, List.filterMap_cons]
  | err e => simp [emitted, emittedOf, List.filterMap_cons]
  | panic => simp [emitted, emittedOf, List.filterMap_cons]

lemma pulledTos_cons (o : PollOut) (os : List PollOut) :
    pulledTos (o :: os) = pulledOf o ++ pulledTos os := by
  rcases o with ⟨res, st, sp, pu, bt⟩
  cases pu <;> simp [pulledTos, pulledOf, List.filterMap_cons]

lemma emitted_nil : emitted [] = [] := rfl

lemma pulledTos_nil : pulledTos [] = [] := rfl

/-- Ledger balance of a single poll call: the blocks pending before the
call plus the blocks pulled equal the blocks emitted plus the blocks
pending after, except that a terminating call may additionally drop the
blocks of a batch that was pulled and lost. -/
lemma poll_ledger (cfg : Config) (env : Env) (s : DepositRelayState) :
    (stops (poll cfg env s).result = false →
      pendingBlocks s ++ pulledOf (poll cfg env s) =
        emittedOf (poll cfg env s) ++ pendingBlocks (poll cfg env s).state) ∧
    (∃ rest, pendingBlocks s ++ pulledOf (poll cfg env s) =
        emittedOf (poll cfg env s) ++ rest) := by
  have hwait : ∀ s0, pendingBlocks s0 = [] → poll cfg env s0 = pollWait cfg env →
      (stops (poll cfg env s0).result = false →
        pendingBlocks s0 ++ pulledOf (poll cfg env s0) =
          emittedOf (poll cfg env s0) ++ pendingBlocks (poll cfg env s0).state) ∧
      (∃ rest, pendingBlocks s0 ++ pulledOf (poll cfg env s0) =
          emittedOf (poll cfg env s0) ++ rest) := by
    intro s0 hpend hps
    rw [hps, hpend]
    rcases pollWait_spec cfg env with
      ⟨_, hw⟩ | ⟨bal, _, _, hw⟩ | ⟨bal, nonce, _, _, _, hw⟩ |
      ⟨bal, nonce, _, _, _, hw⟩ | ⟨bal, nonce, _, _, _, hw⟩ |
      ⟨bal, nonce, it, _, _, _, _, hw⟩ | ⟨bal, nonce, it, _, _, _, _, _, hw⟩ |
      ⟨bal, nonce, it, _, _, _, _, _, hw⟩ |
      ⟨bal, nonce, it, ps, built, _, _, _, _, _, ⟨e2, _⟩, hw⟩ |
      ⟨bal, nonce, it, ps, built, signed, _, _, _, _, _, _, hw⟩ <;> rw [hw]
    · exact ⟨fun _ => rfl, [], rfl⟩
    · exact ⟨fun _ => rfl, [], rfl⟩
    · exact ⟨fun _ => rfl, [], rfl⟩
    · exact ⟨fun h => absurd h (by simp [stops]), [], rfl⟩
    · exact ⟨fun h => absurd h (by simp [stops]), [], rfl⟩
    · exact ⟨fun h => absurd h (by simp [stops]), [it.«to»], by simp [pulledOf, emittedOf]⟩
    · exact ⟨fun h => absurd h (by simp [stops]), [it.«to»], by simp [pulledOf, emittedOf]⟩
    · exact ⟨fun h => absurd h (by simp [stops]), [it.«to»], by simp [pulledOf, emittedOf]⟩
    · exact ⟨fun h => absurd h (by simp [stops]), [it.«to»], by simp [pulledOf, emittedOf]⟩
    · rcases pollRelay_spec env signed it.«to» true (some it) built with
        ⟨_, hpr⟩ | ⟨_, hpr⟩ | ⟨_, hpr⟩ <;> rw [hpr]
      · exact ⟨fun h => absurd h (by simp [stops]), [it.«to»],
          by simp [pulledOf, emittedOf]⟩
      · exact ⟨fun _ => by simp [pulledOf, emittedOf, pendingBlocks], [it.«to»],
          by simp [pulledOf, emittedOf]⟩
      · exact ⟨fun _ => by simp [pulledOf, emittedOf, pendingBlocks], [],
          by simp [pulledOf, emittedOf]⟩
  cases s with
  | Wait => exact hwait DepositRelayState.Wait rfl rfl
  | RelayDeposits txs b =>
    have hps : poll cfg env (DepositRelayState.RelayDeposits txs b) =
        pollRelay env txs b false none [] := rfl
    rw [hps]
    rcases pollRelay_spec env txs b false none [] with
      ⟨_, hpr⟩ | ⟨_, hpr⟩ | ⟨_, hpr⟩ <;> rw [hpr]
    · exact ⟨fun h => absurd h (by simp [stops]), [b],
        by simp [pulledOf, emittedOf, pendingBlocks]⟩
    · exact ⟨fun _ => by simp [pulledOf, emittedOf, pendingBlocks], [b],
        by simp [pulledOf, emittedOf, pendingBlocks]⟩
    · exact ⟨fun _ => by simp [pulledOf, emittedOf, pendingBlocks], [],
        by simp [pulledOf, emittedOf, pendingBlocks]⟩
  | Yield c =>
    cases c with
    | none => exact hwait (DepositRelayState.Yield none) rfl rfl
    | some b =>
      refine ⟨fun _ => ?_, [], ?_⟩ <;>
        simp [poll, pulledOf, emittedOf, pendingBlocks]

lemma run_cons_stop (cfg : Config) (e : Env) (es : List Env)
    (s : DepositRelayState) (h : stops (poll cfg e s).result = true) :
    run cfg s (e :: es) = ((poll cfg e s).state, [poll cfg e s]) := by
  simp [run, h]

lemma run_cons_go (cfg : Config) (e : Env) (es : List Env)
    (s : DepositRelayState) (h : stops (poll cfg e s).result = false) :
    run cfg s (e :: es) =
      ((run cfg (poll cfg e s).state es).1,
       poll cfg e s :: (run cfg (poll cfg e s).state es).2) := by
  rcases hr : run cfg (poll cfg e s).state es with ⟨s2, os⟩
  simp [run, h, hr]

/-- Ledger balance of a whole trace: the blocks pending at the start
plus all blocks pulled equal all blocks emitted plus a remainder (the
blocks still pending or dropped at the end). -/
lemma run_ledger (cfg : Config) : ∀ (envs : List Env) (s : DepositRelayState),
    ∃ rest, pendingBlocks s ++ pulledTos (run cfg s envs).2 =
        emitted (run cfg s envs).2 ++ rest := by
  intro envs
  induction envs with
  | nil =>
    intro s
    exact ⟨pendingBlocks s, by simp [run, pulledTos, emitted]⟩
  | cons e es ih =>
    intro s
    obtain ⟨hstep, rest0, hrest0⟩ := poll_ledger cfg e s
    cases hs : stops (poll cfg e s).result with
    | true =>
      refine ⟨rest0, ?_⟩
      rw [run_cons_stop cfg e es s hs]
      simpa [pulledTos_cons, pulledTos_nil, emitted_cons, emitted_nil] using hrest0
    | false =>
      obtain ⟨rest1, hrest1⟩ := ih (poll cfg e s).state
      refine ⟨rest1, ?_⟩
      rw [run_cons_go cfg e es s hs]
      rw [emitted_cons, pulledTos_cons]
      rw [← List.append_assoc, hstep hs, List.append_assoc, hrest1,
          ← List.append_assoc]

/-- Claim C5: over any trace starting from `Wait`, the emitted
checkpoints are an initial segment of the upper blocks of the pulled
batches, matched in order (each emitted checkpoint equals the
`upper_block` of the batch that produced it); hence, when the upstream
batches arrive in non-decreasing `upper_block` order, the emitted
checkpoints are non-decreasing. -/
theorem C5_checkpoints_match_batches (cfg : Config) (envs : List Env) :
    (∃ rest, pulledTos (run cfg DepositRelayState.Wait envs).2 =
        emitted (run cfg DepositRelayState.Wait envs).2 ++ rest) ∧
    (List.Chain' (fun a b => a ≤ b)
        (pulledTos (run cfg DepositRelayState.Wait envs).2) →
      List.Chain' (fun a b => a ≤ b)
        (emitted (run cfg DepositRelayState.Wait envs).2)) := by
  obtain ⟨rest, hledger⟩ := run_ledger cfg envs DepositRelayState.Wait
  simp only [pendingBlocks, List.nil_append] at hledger
  refine ⟨⟨rest, hledger⟩, ?_⟩
  intro hchain
  rw [hledger] at hchain
  rw [List.chain'_iff_pairwise] at hchain ⊢
  exact (List.pairwise_append.mp hchain).1

/-- Witness for C5 at a concrete input: a two-deposit batch at block 7
(all submissions succeed) followed by an empty batch at block 9 — the
pulled upper blocks are non-decreasing and so are the emitted
checkpoints. -/
theorem C5_checkpoints_match_batches_witness :
    List.Chain' (fun a b => a ≤ b)
      (emitted (run cfgA DepositRelayState.Wait [envDone, envEmptyBatch]).2) :=
  (C5_checkpoints_match_batches cfgA [envDone, envEmptyBatch]).2
    (by
      have hpt : pulledTos (run cfgA DepositRelayState.Wait
          [envDone, envEmptyBatch]).2 = [7, 9] := by decide
      rw [hpt]
      exact List.chain'_pair.mpr (by omega))

end PoaBridge
